import Mathlib

/-!
Shallow embedding of the SATMS-SGP traffic-signal simulation core:
the simulation controller (`src/simulation/traffic_controller.py`),
the four timing strategies (`src/control/strategies/*.py`) and the
strategy-selection logic of both controllers.

Python floats are modelled as exact rationals (`ℚ`); Python `int(x)`
on the non-negative values arising here is `Int.floor`.  Randomness
(`random.random`, `random.choice`, `random.randint`) is externalized
into an explicit per-tick input stream, and the phase-duration query
`strategy.get_phase_duration` (whose implementation module is not part
of the analysed sources) is a parameter of the simulation.
-/

/-- The four inbound approaches of the intersection
(`north_inbound`, ..., in `traffic_controller.py`). -/
inductive Direction
  | north | south | east | west
  deriving DecidableEq, Repr

/-- Per-direction vehicle-queue counts (`self.vehicle_counts`). -/
structure Queues where
  north : ℕ
  south : ℕ
  east : ℕ
  west : ℕ
  deriving DecidableEq, Repr

/-- Read one direction's queue count. -/
def Queues.get (q : Queues) : Direction → ℕ
  | .north => q.north
  | .south => q.south
  | .east => q.east
  | .west => q.west

/-- Overwrite one direction's queue count. -/
def Queues.set (q : Queues) : Direction → ℕ → Queues
  | .north, v => { q with north := v }
  | .south, v => { q with south := v }
  | .east, v => { q with east := v }
  | .west, v => { q with west := v }

/-- Componentwise addition (the `update_vehicle_counts` accumulation). -/
def Queues.add (q r : Queues) : Queues :=
  ⟨q.north + r.north, q.south + r.south, q.east + r.east, q.west + r.west⟩

/-- Total number of queued vehicles over the four directions. -/
def Queues.total (q : Queues) : ℕ :=
  q.north + q.south + q.east + q.west

/-- The two conflicting phase pairs (`north_south` / `east_west`). -/
inductive Phase
  | ns | ew
  deriving DecidableEq, Repr

/-- The opposite phase pair (the `Switch direction` branch). -/
def Phase.other : Phase → Phase
  | .ns => .ew
  | .ew => .ns

/-- Signal sub-state within a phase. -/
inductive SignalState
  | green | yellow
  deriving DecidableEq, Repr

/-- Entries of `self.phase_history`: phase records appended by
`update_phase`, and the accident-recovery bookkeeping entries appended
by `add_random_traffic_event` (tag `accident_clear`, rewritten to
`accident_cleared` by the clearance scan in `run_simulation`). -/
inductive HistEntry
  | phaseRec (time : ℕ) (phase : Phase) (state : SignalState) (duration : ℕ) (counts : Queues)
  | accidentClear (time : ℕ) (dir : Direction) (restore : ℕ)
  | accidentCleared (time : ℕ) (dir : Direction) (restore : ℕ)
  deriving DecidableEq, Repr

/-- Simulation state of `TrafficController` (`traffic_controller.py`). -/
structure CState where
  currentPhase : Phase
  phaseState : SignalState
  timeElapsed : ℕ
  phaseStartTime : ℕ
  phaseDuration : ℕ
  counts : Queues
  processed : ℕ
  totalWait : ℕ
  history : List HistEntry
  deriving DecidableEq, Repr

/-- Initial controller state set up in `TrafficController.__init__`. -/
def initState : CState :=
  ⟨.ns, .green, 0, 0, 30, ⟨0, 0, 0, 0⟩, 0, 0, []⟩

/-- One random traffic event, as chosen in `add_random_traffic_event`
(the probability gate and random choices are externalized). -/
inductive TrafficEvent
  | surge (dir : Direction) (amount : ℕ)
  | roadblock (dir : Direction)
  | accident (dir : Direction)
  deriving DecidableEq, Repr

/-- Input consumed by one iteration of the `run_simulation` loop: the
generated per-direction counts and the (optional) random event. -/
structure TickInput where
  added : Queues
  event : Option TrafficEvent
  deriving DecidableEq, Repr

/-- A tick input with no new vehicles and no event. -/
def nopInput : TickInput := ⟨⟨0, 0, 0, 0⟩, none⟩

/-- `update_vehicle_counts`: add the generated counts to the queues. -/
def update_vehicle_counts (s : CState) (added : Queues) : CState :=
  { s with counts := s.counts.add added }

/-- Effect of `add_random_traffic_event` once the event has been chosen:
a surge adds vehicles, a roadblock halves the queue
(`max(0, int(count * 0.5))`, i.e. floor division by two on a
non-negative integer), an accident zeroes the queue and appends an
`accident_clear` bookkeeping entry to the phase history. -/
def add_traffic_event (s : CState) : Option TrafficEvent → CState
  | none => s
  | some (.surge d a) => { s with counts := s.counts.set d (s.counts.get d + a) }
  | some (.roadblock d) => { s with counts := s.counts.set d (s.counts.get d / 2) }
  | some (.accident d) =>
      { s with counts := s.counts.set d 0,
               history := s.history ++ [HistEntry.accidentClear s.timeElapsed d (s.counts.get d)] }

/-- The two directions that move during a phase. -/
def activeDirs : Phase → Direction × Direction
  | .ns => (.north, .south)
  | .ew => (.east, .west)

/-- `process_vehicles`: drain `min(queued, flow_rate)` from each active
direction (flow 3 on green, 1 on yellow), and add the inactive
directions' queue counts to the accumulated wait time. -/
def process_vehicles (s : CState) : CState :=
  let flow : ℕ := if s.phaseState = .green then 3 else 1
  let a := activeDirs s.currentPhase
  let i := activeDirs s.currentPhase.other
  let p1 := min (s.counts.get a.1) flow
  let q1 := s.counts.set a.1 (s.counts.get a.1 - p1)
  let p2 := min (q1.get a.2) flow
  let q2 := q1.set a.2 (q1.get a.2 - p2)
  { s with counts := q2,
           processed := s.processed + p1 + p2,
           totalWait := s.totalWait + q2.get i.1 + q2.get i.2 }

/-- `update_phase`: when the phase duration has elapsed, append a phase
record, then either switch green → yellow (same phase pair, hardcoded
5-second duration) or yellow → green of the other pair, with the green
duration supplied by the strategy (modelled as the parameter `g`). -/
def update_phase (g : CState → ℕ) (s : CState) : CState :=
  if s.phaseDuration ≤ s.timeElapsed - s.phaseStartTime then
    let s1 := { s with history :=
      s.history ++ [HistEntry.phaseRec s.timeElapsed s.currentPhase s.phaseState s.phaseDuration s.counts] }
    if s.phaseState = .green then
      { s1 with phaseState := .yellow, phaseDuration := 5, phaseStartTime := s.timeElapsed }
    else
      { s1 with phaseState := .green,
                currentPhase := s.currentPhase.other,
                phaseDuration := g s,
                phaseStartTime := s.timeElapsed }
  else s

/-- One step of the accident-clearance scan: an `accident_clear` entry
whose due time has passed is marked `accident_cleared`. -/
def clearEntry (now : ℕ) : HistEntry → HistEntry
  | .accidentClear t d r => if t + 20 ≤ now then .accidentCleared t d r else .accidentClear t d r
  | e => e

/-- History after the accident-clearance scan of `run_simulation`. -/
def clearHistory (now : ℕ) (h : List HistEntry) : List HistEntry :=
  h.map (clearEntry now)

/-- Queue counts after the accident-clearance scan: each due
`accident_clear` entry restores its saved count, in list order. -/
def clearCounts (now : ℕ) (h : List HistEntry) (q : Queues) : Queues :=
  h.foldl (fun q e =>
    match e with
    | .accidentClear t d r => if t + 20 ≤ now then q.set d r else q
    | _ => q) q

/-- One iteration of the `run_simulation` loop body. -/
def tick (g : CState → ℕ) (s : CState) (inp : TickInput) : CState :=
  let s1 := update_vehicle_counts s inp.added
  let s2 := add_traffic_event s1 inp.event
  let s3 := process_vehicles s2
  let s4 := update_phase g s3
  let s5 := { s4 with history := clearHistory s4.timeElapsed s4.history,
                      counts := clearCounts s4.timeElapsed s4.history s4.counts }
  { s5 with timeElapsed := s5.timeElapsed + 1 }

/-- `run_simulation`: fold the tick over the externalized input stream,
starting from the initial controller state. -/
def run_simulation (g : CState → ℕ) (inputs : List TickInput) : CState :=
  inputs.foldl (tick g) initState

/-- A constant phase-duration oracle (the controller's default 30 s). -/
def defaultGetDur : CState → ℕ := fun _ => 30

/-- `calculate_statistics`: average wait time (0 when nothing has been
processed) and throughput in vehicles per minute. -/
def calculate_statistics (s : CState) : ℚ × ℚ :=
  (if s.processed = 0 then 0 else (s.totalWait : ℚ) / max 1 (s.processed : ℚ),
   (s.processed : ℚ) / max 1 (s.timeElapsed : ℚ) * 60)

/-! ## Timing strategies (`src/control/strategies/`) -/

/-- `min_green_time` of `TrafficControlStrategy.__init__`. -/
def min_green_time : ℤ := 5

/-- `max_green_time` of `TrafficControlStrategy.__init__`. -/
def max_green_time : ℤ := 60

/-- `yellow_time` of `TrafficControlStrategy.__init__`. -/
def yellow_time : ℤ := 3

/-- Result of `calculate_phase_times`: green and yellow durations for
the two phase pairs. -/
structure PhaseTimes where
  nsGreen : ℤ
  nsYellow : ℤ
  ewGreen : ℤ
  ewYellow : ℤ
  deriving DecidableEq, Repr

/-- `FixedTimeStrategy.calculate_phase_times` with the default
configured times (30/30); the snapshot is ignored. -/
def FixedTimeStrategy.calculate_phase_times (_ : Option Queues) : PhaseTimes :=
  ⟨30, yellow_time, 30, yellow_time⟩

/-- `cycle_length` default of `ProportionalStrategy`. -/
def prop_cycle_length : ℤ := 90

/-- `min_green_ratio` default of `ProportionalStrategy` (0.3). -/
def prop_min_share : ℚ := 3 / 10

/-- `available_green = cycle_length - 2 * yellow_time` (integers). -/
def prop_avail : ℤ := prop_cycle_length - 2 * yellow_time

/-- The minimum-ratio adjustment of `ProportionalStrategy`: a side whose
share falls below the floor is raised to it, the other lowered to the
complement. -/
def propAdjust (nsR ewR : ℚ) : ℚ × ℚ :=
  if nsR < prop_min_share then (prop_min_share, 1 - prop_min_share)
  else if ewR < prop_min_share then (1 - prop_min_share, prop_min_share)
  else (nsR, ewR)

/-- `ProportionalStrategy.calculate_phase_times` with the default
configuration. -/
def ProportionalStrategy.calculate_phase_times (data : Option Queues) : PhaseTimes :=
  match data with
  | none =>
      let g : ℤ := Int.floor (((prop_cycle_length : ℚ) - 2 * (yellow_time : ℚ)) / 2)
      ⟨g, yellow_time, g, yellow_time⟩
  | some vc =>
      let nsCount : ℕ := vc.north + vc.south
      let ewCount : ℕ := vc.east + vc.west
      let total : ℕ := nsCount + ewCount
      if 0 < total then
        let r := propAdjust ((nsCount : ℚ) / total) ((ewCount : ℚ) / total)
        let nsG : ℤ := max min_green_time (Int.floor ((prop_avail : ℚ) * r.1))
        let ewG : ℤ := max min_green_time (Int.floor ((prop_avail : ℚ) * r.2))
        let totalG : ℤ := nsG + ewG
        if prop_avail < totalG then
          let nsG2 := max min_green_time (Int.floor ((nsG : ℚ) * prop_avail / totalG))
          let ewG2 := max min_green_time (Int.floor ((ewG : ℚ) * prop_avail / totalG))
          ⟨nsG2, yellow_time, ewG2, yellow_time⟩
        else ⟨nsG, yellow_time, ewG, yellow_time⟩
      else ⟨prop_avail / 2, yellow_time, prop_avail / 2, yellow_time⟩

/-- `saturation_flow` default of `WebsterStrategy` (one lane per
direction, so capacity per direction is exactly this). -/
def webster_sat_flow : ℚ := 1800

/-- Webster's hourly scale factor for a 5-minute snapshot. -/
def webster_scale : ℚ := 12

/-- `min_cycle_length` default of `WebsterStrategy`. -/
def webster_min_cycle : ℚ := 30

/-- `max_cycle_length` default of `WebsterStrategy`. -/
def webster_max_cycle : ℚ := 180

/-- `lost_time` default of `WebsterStrategy` (per phase, seconds). -/
def webster_lost_time : ℚ := 4

/-- Critical flow ratio of a phase pair: the larger of the two
directions' `flow / (saturation_flow * lanes)`. -/
def websterCrit (a b : ℕ) : ℚ :=
  max ((a : ℚ) * webster_scale / webster_sat_flow)
      ((b : ℚ) * webster_scale / webster_sat_flow)

/-- Sum `Y` of the two critical flow ratios. -/
def websterY (vc : Queues) : ℚ :=
  websterCrit vc.north vc.south + websterCrit vc.east vc.west

/-- Cycle length chosen by `WebsterStrategy`: Webster's formula
`(1.5 L + 5) / (1 - Y)` clamped to the cycle-length bounds when
`Y < 0.95`, and `max_cycle_length` directly otherwise. -/
def websterCycle (y : ℚ) : ℚ :=
  if y < 95 / 100 then
    max webster_min_cycle
      (min webster_max_cycle
        ((3 / 2 * (2 * webster_lost_time) + 5) / (1 - y)))
  else webster_max_cycle

/-- `WebsterStrategy.calculate_phase_times` with the default
configuration. -/
def WebsterStrategy.calculate_phase_times (data : Option Queues) : PhaseTimes :=
  match data with
  | none => ⟨30, yellow_time, 30, yellow_time⟩
  | some vc =>
      let nsR := websterCrit vc.north vc.south
      let ewR := websterCrit vc.east vc.west
      let y := nsR + ewR
      if y < 1 / 1000 then ⟨30, yellow_time, 30, yellow_time⟩
      else
        let eff := websterCycle y - 2 * webster_lost_time
        let p : ℚ × ℚ :=
          if 0 < y then (eff * (nsR / y), eff * (ewR / y)) else (eff / 2, eff / 2)
        ⟨max min_green_time (Int.floor p.1), yellow_time,
         max min_green_time (Int.floor p.2), yellow_time⟩

/-- `max_cycle_length` default of `AdaptiveStrategy`. -/
def adaptive_max_cycle : ℚ := 120

/-- Mutable state of `AdaptiveStrategy`: blending weights, the
previously returned green times, and the per-direction trend buffers. -/
structure AdaptiveState where
  responsiveness : ℚ
  historical_weight : ℚ
  prevNS : ℤ
  prevEW : ℤ
  trendN : List ℕ
  trendS : List ℕ
  trendE : List ℕ
  trendW : List ℕ
  deriving DecidableEq, Repr

/-- State set up by `AdaptiveStrategy.__init__`. -/
def AdaptiveState.init : AdaptiveState :=
  ⟨7 / 10, 3 / 10, 30, 30, [], [], [], []⟩

/-- `AdaptiveStrategy.set_responsiveness`: clamp to `[0.1, 1.0]` and
keep `historical_weight = 1 - responsiveness`. -/
def set_responsiveness (st : AdaptiveState) (v : ℚ) : AdaptiveState :=
  let r := max (1 / 10) (min 1 v)
  { st with responsiveness := r, historical_weight := 1 - r }

/-- Append one observation to a trend buffer, keeping the most recent
`max_trend_points = 5` entries (`pop(0)` drops the oldest). -/
def pushTrend (l : List ℕ) (c : ℕ) : List ℕ :=
  let l2 := l ++ [c]
  if 5 < l2.length then l2.tail else l2

/-- `AdaptiveStrategy.update_trends` on a snapshot that carries
vehicle counts. -/
def update_trends (st : AdaptiveState) (vc : Queues) : AdaptiveState :=
  { st with trendN := pushTrend st.trendN vc.north,
            trendS := pushTrend st.trendS vc.south,
            trendE := pushTrend st.trendE vc.east,
            trendW := pushTrend st.trendW vc.west }

/-- `AdaptiveStrategy.get_trend_factor` on one direction's buffer. -/
def get_trend_factor (l : List ℕ) : ℚ :=
  if l.length < 2 then 1
  else
    let latest : ℚ := ((l.reverse.take 2).sum : ℕ) / 2
    let earliest : ℚ := ((l.take 2).sum : ℕ) / 2
    if earliest = 0 then (if latest = 0 then 1 else 6 / 5)
    else max (4 / 5) (min (3 / 2) (latest / earliest))

/-- The freshly computed (pre-blend) target green times of
`AdaptiveStrategy.calculate_phase_times`: trend-adjusted demand shares
of the available green budget, clamped to the minimum green time.
Takes the trend buffers as already updated by `update_trends`. -/
def adaptiveTargets (st : AdaptiveState) (vc : Queues) : ℚ × ℚ :=
  let nsCount : ℚ := (vc.north : ℚ) + (vc.south : ℚ)
  let ewCount : ℚ := (vc.east : ℚ) + (vc.west : ℚ)
  let nsTrend := (get_trend_factor st.trendN + get_trend_factor st.trendS) / 2
  let ewTrend := (get_trend_factor st.trendE + get_trend_factor st.trendW) / 2
  let nsAdj := nsCount * nsTrend
  let ewAdj := ewCount * ewTrend
  let total := nsAdj + ewAdj
  let avail := adaptive_max_cycle - 2 * (yellow_time : ℚ)
  let p : ℚ × ℚ :=
    if 0 < total then (avail * (nsAdj / total), avail * (ewAdj / total))
    else (avail / 2, avail / 2)
  (max (min_green_time : ℚ) p.1, max (min_green_time : ℚ) p.2)

/-- `AdaptiveStrategy.calculate_phase_times`: update the trend buffers,
compute fresh targets, blend them with the previously returned times
using `responsiveness` / `historical_weight`, truncate to integers and
store the result as the new previous times. -/
def AdaptiveStrategy.calculate_phase_times (st : AdaptiveState) (data : Option Queues) :
    AdaptiveState × PhaseTimes :=
  match data with
  | none => (st, ⟨st.prevNS, yellow_time, st.prevEW, yellow_time⟩)
  | some vc =>
      let st1 := update_trends st vc
      let t := adaptiveTargets st1 vc
      let nsG : ℤ := Int.floor (st.responsiveness * t.1 + st.historical_weight * (st.prevNS : ℚ))
      let ewG : ℤ := Int.floor (st.responsiveness * t.2 + st.historical_weight * (st.prevEW : ℚ))
      ({ st1 with prevNS := nsG, prevEW := ewG },
       ⟨nsG, yellow_time, ewG, yellow_time⟩)

/-! ## Strategy selection -/

/-- The four concrete strategy kinds. -/
inductive StrategyKind
  | fixed | proportional | webster | adaptive
  deriving DecidableEq, Repr

/-- Key lookup in the `strategies` dictionaries (same keys in both
controllers). -/
def strategyOfName (name : String) : Option StrategyKind :=
  if name = "fixed" then some .fixed
  else if name = "proportional" then some .proportional
  else if name = "webster" then some .webster
  else if name = "adaptive" then some .adaptive
  else none

/-- `TrafficController._create_strategy`
(`src/simulation/traffic_controller.py`): an unknown name yields the
proportional strategy; the boolean records whether the warning was
logged. -/
def create_strategy (name : String) : StrategyKind × Bool :=
  match strategyOfName name with
  | some k => (k, false)
  | none => (.proportional, true)

/-- `TrafficController.set_strategy` (`src/control/controller.py`):
a known (lower-cased) name replaces the active strategy and returns
`True`; an unknown name leaves it unchanged and returns `False`. -/
def set_strategy (cur : Option StrategyKind) (name : String) :
    Option StrategyKind × Bool :=
  match strategyOfName name.toLower with
  | some k => (some k, true)
  | none => (cur, false)

/-! ## Basic lemmas -/

set_option maxRecDepth 8000

lemma Phase.other_ne (p : Phase) : p.other ≠ p := by cases p <;> decide

lemma Queues.get_set_self (q : Queues) (d : Direction) (v : ℕ) :
    (q.set d v).get d = v := by
  cases d <;> rfl

lemma Queues.get_set_ne (q : Queues) (d d' : Direction) (v : ℕ) (h : d' ≠ d) :
    (q.set d v).get d' = q.get d' := by
  cases d <;> cases d' <;> simp_all [Queues.get, Queues.set]

/-! ## Claim C6 -/

/-- C6: a roadblock event on a direction whose queue holds 20 vehicles
leaves exactly 10 vehicles there (integer floor of `20 * 0.5`) and does
not change any other direction's queue. -/
theorem c6_roadblock_halves_only_target (s : CState) (d : Direction)
    (h : s.counts.get d = 20) :
    (add_traffic_event s (some (.roadblock d))).counts.get d = 10 ∧
    ∀ d', d' ≠ d →
      (add_traffic_event s (some (.roadblock d))).counts.get d' = s.counts.get d' := by
  constructor
  · simp [add_traffic_event, Queues.get_set_self, h]
  · intro d' hd
    simp [add_traffic_event, Queues.get_set_ne _ _ _ _ hd]

/-- C6 witness: the theorem applied at a concrete state with
`north` queue 20. -/
theorem c6_roadblock_halves_only_target_witness :
    ({ initState with counts := ⟨20, 5, 6, 7⟩ } : CState).counts.get .north = 20 ∧
    ((add_traffic_event { initState with counts := ⟨20, 5, 6, 7⟩ }
        (some (.roadblock .north))).counts.get .north = 10 ∧
      ∀ d', d' ≠ Direction.north →
        (add_traffic_event { initState with counts := ⟨20, 5, 6, 7⟩ }
          (some (.roadblock .north))).counts.get d' =
        ({ initState with counts := ⟨20, 5, 6, 7⟩ } : CState).counts.get d') :=
  ⟨by decide, c6_roadblock_halves_only_target _ .north (by decide)⟩

/-! ## Claim C9 -/

/-- C9: whenever the sum `Y` of the two critical flow ratios is at
least 0.95, the cycle length used by `WebsterStrategy` to allocate
green time is exactly `max_cycle_length` (Webster's formula is
skipped). -/
theorem c9_capacity_uses_max_cycle (vc : Queues)
    (h : 95 / 100 ≤ websterY vc) :
    websterCycle (websterY vc) = webster_max_cycle := by
  unfold websterCycle
  rw [if_neg (not_lt.mpr h)]

/-- C9 witness: a snapshot saturating the north approach gives
`Y = 1 ≥ 0.95` and hence the maximum cycle length. -/
theorem c9_capacity_uses_max_cycle_witness :
    95 / 100 ≤ websterY ⟨150, 0, 0, 0⟩ ∧
    websterCycle (websterY ⟨150, 0, 0, 0⟩) = webster_max_cycle :=
  ⟨by norm_num [websterY, websterCrit, webster_sat_flow, webster_scale],
   c9_capacity_uses_max_cycle _
     (by norm_num [websterY, websterCrit, webster_sat_flow, webster_scale])⟩

/-! ## Claim C10 -/

/-- C10: `calculate_statistics` is total and never divides by zero:
both divisors are positive on every state, the average wait time is 0
when nothing has been processed (and `total_wait / processed`
otherwise), and throughput is `processed / max(1, time_elapsed) * 60`,
well-defined even at tick 0. -/
theorem c10_statistics_total (s : CState) :
    (0 : ℚ) < max 1 (s.processed : ℚ) ∧
    (0 : ℚ) < max 1 (s.timeElapsed : ℚ) ∧
    (s.processed = 0 → (calculate_statistics s).1 = 0) ∧
    (s.processed ≠ 0 →
      (calculate_statistics s).1 = (s.totalWait : ℚ) / (s.processed : ℚ)) ∧
    (calculate_statistics s).2 = (s.processed : ℚ) / max 1 (s.timeElapsed : ℚ) * 60 := by
  refine ⟨lt_of_lt_of_le one_pos (le_max_left _ _),
    lt_of_lt_of_le one_pos (le_max_left _ _), ?_, ?_, rfl⟩
  · intro h
    simp [calculate_statistics, h]
  · intro h
    have h1 : (1 : ℚ) ≤ (s.processed : ℚ) := by
      exact_mod_cast Nat.one_le_iff_ne_zero.mpr h
    simp [calculate_statistics, h, max_eq_right h1]

/-- C10 witness: at the initial state (tick 0, nothing processed) the
statistics evaluate without division by zero to average wait 0. -/
theorem c10_statistics_total_witness :
    initState.processed = 0 ∧ (calculate_statistics initState).1 = 0 :=
  ⟨rfl, ((c10_statistics_total initState).2.2.1) rfl⟩

/-! ## Claim C7 -/

lemma lower_bogus : "bogus".toLower = "bogus" := by
  show String.map Char.toLower "bogus" = "bogus"
  rw [String.map_eq]
  decide

/-- C7 counterexample: `set_strategy` of the control-package controller
does not fall back to the proportional strategy on an unknown name: it
leaves the active strategy unchanged (here: unset) and returns
`False`. -/
theorem c7_set_strategy_no_fallback :
    set_strategy none "bogus" = (none, false) ∧
    (set_strategy none "bogus").1 ≠ some StrategyKind.proportional := by
  constructor <;> simp [set_strategy, lower_bogus, strategyOfName]

/-- C7 amended: on a name outside the strategy dictionary, the
simulation controller's `_create_strategy` falls back to the
proportional strategy with a warning and never raises, while the
control-package controller's `set_strategy` reports `False` and leaves
the active strategy unchanged (no fallback). -/
theorem c7_unknown_name_handling (name : String) (cur : Option StrategyKind)
    (h1 : strategyOfName name = none) (h2 : strategyOfName name.toLower = none) :
    create_strategy name = (.proportional, true) ∧
    set_strategy cur name = (cur, false) := by
  constructor
  · simp [create_strategy, h1]
  · simp [set_strategy, h2]

/-- C7 witness: the unknown name `bogus` with no strategy active. -/
theorem c7_unknown_name_handling_witness :
    strategyOfName "bogus" = none ∧
    strategyOfName (String.toLower "bogus") = none ∧
    (create_strategy "bogus" = (.proportional, true) ∧
      set_strategy none "bogus" = (none, false)) :=
  ⟨by simp [strategyOfName], by simp [lower_bogus, strategyOfName],
   c7_unknown_name_handling "bogus" none (by simp [strategyOfName])
     (by simp [lower_bogus, strategyOfName])⟩

/-! ## Claim C1 -/

/-- C1: `WebsterStrategy.calculate_phase_times` violates the claimed
upper bound: on the snapshot `north = 150` (others 0) it returns a
north-south green of 172 seconds, far above `max_green_time = 60`,
because the final conversion clamps only from below.  The yellow
durations do equal the configured `yellow_time`. -/
theorem c1_webster_green_exceeds_max :
    (WebsterStrategy.calculate_phase_times (some ⟨150, 0, 0, 0⟩)).nsGreen = 172 ∧
    ¬ (WebsterStrategy.calculate_phase_times (some ⟨150, 0, 0, 0⟩)).nsGreen ≤ max_green_time ∧
    (WebsterStrategy.calculate_phase_times (some ⟨150, 0, 0, 0⟩)).nsYellow = yellow_time := by
  have h : (WebsterStrategy.calculate_phase_times (some ⟨150, 0, 0, 0⟩)).nsGreen = 172 := by
    simp only [WebsterStrategy.calculate_phase_times, websterCrit, websterCycle,
      webster_sat_flow, webster_scale, webster_min_cycle, webster_max_cycle,
      webster_lost_time, min_green_time, yellow_time]
    norm_num
  refine ⟨h, ?_, ?_⟩
  · rw [h]
    decide
  · simp only [WebsterStrategy.calculate_phase_times]
    split <;> rfl

/-! ## Claim C2 -/

/-- C2 counterexample: running the simulation controller for 31 quiet
ticks closes the initial 30-second north-south green; the controller is
then in yellow for the same pair, but with the hardcoded duration 5,
which differs from the strategies' configured `yellow_time = 3`. -/
theorem c2_yellow_is_hardcoded_five :
    (run_simulation defaultGetDur (List.replicate 31 nopInput)).phaseState = .yellow ∧
    (run_simulation defaultGetDur (List.replicate 31 nopInput)).currentPhase = .ns ∧
    (run_simulation defaultGetDur (List.replicate 31 nopInput)).phaseDuration = 5 ∧
    ((run_simulation defaultGetDur (List.replicate 31 nopInput)).phaseDuration : ℤ) ≠
      yellow_time := by
  refine ⟨by decide, by decide, by decide, by decide⟩

/-- C2 amended: whenever a green phase's duration elapses,
`update_phase` transitions to yellow for the same phase pair, but with
the hardcoded 5-second duration of `traffic_controller.py`, not the
strategies' configured yellow constant (3 s). -/
theorem c2_green_to_yellow_same_phase (g : CState → ℕ) (s : CState)
    (hg : s.phaseState = .green)
    (hd : s.phaseDuration ≤ s.timeElapsed - s.phaseStartTime) :
    (update_phase g s).phaseState = .yellow ∧
    (update_phase g s).currentPhase = s.currentPhase ∧
    (update_phase g s).phaseDuration = 5 := by
  unfold update_phase
  rw [if_pos hd, if_pos hg]
  exact ⟨rfl, rfl, rfl⟩

/-- C2 witness: a concrete state whose green phase has just elapsed. -/
theorem c2_green_to_yellow_same_phase_witness :
    (⟨.ns, .green, 30, 0, 30, ⟨0, 0, 0, 0⟩, 0, 0, []⟩ : CState).phaseState = .green ∧
    (⟨.ns, .green, 30, 0, 30, ⟨0, 0, 0, 0⟩, 0, 0, []⟩ : CState).phaseDuration ≤ 30 - 0 ∧
    ((update_phase defaultGetDur ⟨.ns, .green, 30, 0, 30, ⟨0, 0, 0, 0⟩, 0, 0, []⟩).phaseState = .yellow ∧
     (update_phase defaultGetDur ⟨.ns, .green, 30, 0, 30, ⟨0, 0, 0, 0⟩, 0, 0, []⟩).currentPhase =
       (⟨.ns, .green, 30, 0, 30, ⟨0, 0, 0, 0⟩, 0, 0, []⟩ : CState).currentPhase ∧
     (update_phase defaultGetDur ⟨.ns, .green, 30, 0, 30, ⟨0, 0, 0, 0⟩, 0, 0, []⟩).phaseDuration = 5) :=
  ⟨rfl, by decide, c2_green_to_yellow_same_phase defaultGetDur _ rfl (by decide)⟩

/-! ## Claim C4: strict alternation of green records -/

/-- Select the phase of a green phase record. -/
def greenSel : HistEntry → Option Phase
  | .phaseRec _ p .green _ _ => some p
  | _ => none

@[simp] lemma greenSel_green (t : ℕ) (p : Phase) (d : ℕ) (c : Queues) :
    greenSel (.phaseRec t p .green d c) = some p := rfl

@[simp] lemma greenSel_yellow (t : ℕ) (p : Phase) (d : ℕ) (c : Queues) :
    greenSel (.phaseRec t p .yellow d c) = none := rfl

@[simp] lemma greenSel_clear (t : ℕ) (d : Direction) (r : ℕ) :
    greenSel (.accidentClear t d r) = none := rfl

@[simp] lemma greenSel_cleared (t : ℕ) (d : Direction) (r : ℕ) :
    greenSel (.accidentCleared t d r) = none := rfl

/-- The sequence of phases of the green records in a history. -/
def greens (h : List HistEntry) : List Phase := h.filterMap greenSel

lemma greens_append_none (h : List HistEntry) (e : HistEntry)
    (he : greenSel e = none) : greens (h ++ [e]) = greens h := by
  simp [greens, List.filterMap_append, he]

lemma greens_append_some (h : List HistEntry) (e : HistEntry) (p : Phase)
    (he : greenSel e = some p) : greens (h ++ [e]) = greens h ++ [p] := by
  simp [greens, List.filterMap_append, he]

lemma greenSel_clearEntry (now : ℕ) (e : HistEntry) :
    greenSel (clearEntry now e) = greenSel e := by
  cases e with
  | phaseRec t p st d c => rfl
  | accidentCleared t d r => rfl
  | accidentClear t d r =>
      simp only [clearEntry]
      split <;> rfl

lemma greens_clearHistory (now : ℕ) (h : List HistEntry) :
    greens (clearHistory now h) = greens h := by
  unfold greens clearHistory
  rw [List.filterMap_map]
  exact List.filterMap_congr (fun e _ => greenSel_clearEntry now e)

/-- The phase pair of the next green record that will be appended to
the history: the current pair while it is green, the opposite pair
while it is yellow. -/
def pendingGreen (s : CState) : Phase :=
  match s.phaseState with
  | .green => s.currentPhase
  | .yellow => s.currentPhase.other

/-- Alternation invariant on a history together with the pending green
phase. -/
def AltInvH (h : List HistEntry) (pend : Phase) : Prop :=
  List.Chain' (fun a b => a ≠ b) (greens h) ∧
  ∀ p ∈ (greens h).getLast?, p ≠ pend

/-- Alternation invariant of a controller state. -/
def AltInv (s : CState) : Prop := AltInvH s.history (pendingGreen s)

lemma altInvH_append_none (h : List HistEntry) (pend : Phase) (e : HistEntry)
    (he : greenSel e = none) (hi : AltInvH h pend) : AltInvH (h ++ [e]) pend := by
  unfold AltInvH at *
  rw [greens_append_none _ _ he]
  exact hi

lemma altInvH_clear (now : ℕ) (h : List HistEntry) (pend : Phase)
    (hi : AltInvH h pend) : AltInvH (clearHistory now h) pend := by
  unfold AltInvH at *
  rw [greens_clearHistory]
  exact hi

lemma altInvH_green_close (h : List HistEntry) (p : Phase) (t d : ℕ) (c : Queues)
    (hi : AltInvH h p) : AltInvH (h ++ [.phaseRec t p .green d c]) p.other := by
  obtain ⟨h1, h2⟩ := hi
  unfold AltInvH
  rw [greens_append_some h (.phaseRec t p .green d c) p (greenSel_green t p d c)]
  constructor
  · rw [List.chain'_append]
    refine ⟨h1, List.chain'_singleton _, ?_⟩
    intro x hx y hy
    simp only [List.head?_cons, Option.mem_def, Option.some.injEq] at hy
    subst hy
    exact h2 x hx
  · intro q hq
    rw [List.getLast?_concat] at hq
    simp only [Option.mem_def, Option.some.injEq] at hq
    subst hq
    exact (Phase.other_ne p).symm

lemma altInv_event (s : CState) (ev : Option TrafficEvent) (h : AltInv s) :
    AltInv (add_traffic_event s ev) := by
  match ev with
  | none => exact h
  | some (.surge d a) => exact h
  | some (.roadblock d) => exact h
  | some (.accident d) =>
      exact altInvH_append_none _ _ _ rfl h

lemma altInv_update_phase (g : CState → ℕ) (s : CState) (h : AltInv s) :
    AltInv (update_phase g s) := by
  unfold update_phase
  split
  · split
    next hg =>
      show AltInvH (s.history ++ [.phaseRec s.timeElapsed s.currentPhase s.phaseState s.phaseDuration s.counts]) s.currentPhase.other
      rw [hg]
      refine altInvH_green_close _ _ _ _ _ ?_
      have hp : pendingGreen s = s.currentPhase := by
        unfold pendingGreen
        rw [hg]
      rw [← hp]
      exact h
    next hg =>
      have hy : s.phaseState = .yellow := by
        cases hs : s.phaseState
        · exact absurd hs hg
        · rfl
      show AltInvH (s.history ++ [.phaseRec s.timeElapsed s.currentPhase s.phaseState s.phaseDuration s.counts]) s.currentPhase.other
      have hp : pendingGreen s = s.currentPhase.other := by
        unfold pendingGreen
        rw [hy]
      refine altInvH_append_none _ _ _ ?_ ?_
      · rw [hy]
        rfl
      · rw [← hp]
        exact h
  · exact h

lemma altInv_tick (g : CState → ℕ) (s : CState) (inp : TickInput) (h : AltInv s) :
    AltInv (tick g s inp) := by
  have h1 : AltInv (update_vehicle_counts s inp.added) := h
  have h2 := altInv_event _ inp.event h1
  have h3 : AltInv (process_vehicles (add_traffic_event (update_vehicle_counts s inp.added) inp.event)) := h2
  have h4 := altInv_update_phase g _ h3
  exact altInvH_clear _ _ _ h4

lemma altInv_foldl (g : CState → ℕ) (l : List TickInput) (s : CState) (h : AltInv s) :
    AltInv (l.foldl (tick g) s) := by
  induction l generalizing s with
  | nil => exact h
  | cons i t ih => exact ih _ (altInv_tick g s i h)

/-- C4: in every simulation run, for every choice of phase durations
and every input stream, the green records of the phase history strictly
alternate between the two phase pairs: adjacent green records always
carry different phases. -/
theorem c4_green_phases_alternate (g : CState → ℕ) (inputs : List TickInput) :
    List.Chain' (fun a b => a ≠ b) (greens (run_simulation g inputs).history) :=
  (altInv_foldl g inputs initState ⟨List.chain'_nil, by simp [greens, initState]⟩).1

/-! ## Claim C3: mutation of history entries -/

/-- How a history entry may change over the rest of a run: it stays
identical, or it is an `accident_clear` entry whose tag is rewritten to
`accident_cleared` by the clearance scan. -/
def evolvesTo (e e' : HistEntry) : Prop :=
  e' = e ∨ ∃ t d r, e = .accidentClear t d r ∧ e' = .accidentCleared t d r

lemma evolvesTo_trans (a b c : HistEntry) (hab : evolvesTo a b) (hbc : evolvesTo b c) :
    evolvesTo a c := by
  rcases hab with rfl | ⟨t, d, r, rfl, rfl⟩
  · exact hbc
  · rcases hbc with rfl | ⟨t', d', r', heq, hc⟩
    · exact Or.inr ⟨t, d, r, rfl, rfl⟩
    · exact HistEntry.noConfusion heq

lemma clearEntry_evolvesTo (now : ℕ) (e : HistEntry) : evolvesTo e (clearEntry now e) := by
  cases e with
  | accidentClear t d r =>
      simp only [clearEntry]
      split
      · exact Or.inr ⟨t, d, r, rfl, rfl⟩
      · exact Or.inl rfl
  | phaseRec t p st d c => exact Or.inl rfl
  | accidentCleared t d r => exact Or.inl rfl

lemma lt_of_getElem?_some {α : Type} {l : List α} {i : ℕ} {e : α}
    (h : l[i]? = some e) : i < l.length := by
  by_contra hnot
  rw [List.getElem?_eq_none (Nat.le_of_not_lt hnot)] at h
  cases h

lemma getElem?_append_first {α : Type} (l l' : List α) (i : ℕ) (e : α)
    (h : l[i]? = some e) : (l ++ l')[i]? = some e := by
  rw [List.getElem?_append_left (lt_of_getElem?_some h)]
  exact h

lemma hist_add_event (s : CState) (ev : Option TrafficEvent) (i : ℕ) (e : HistEntry)
    (h : s.history[i]? = some e) : (add_traffic_event s ev).history[i]? = some e := by
  match ev with
  | none => exact h
  | some (.surge d a) => exact h
  | some (.roadblock d) => exact h
  | some (.accident d) => exact getElem?_append_first _ _ _ _ h

lemma hist_update_phase (g : CState → ℕ) (s : CState) (i : ℕ) (e : HistEntry)
    (h : s.history[i]? = some e) : (update_phase g s).history[i]? = some e := by
  unfold update_phase
  split
  · split
    · exact getElem?_append_first _ _ _ _ h
    · exact getElem?_append_first _ _ _ _ h
  · exact h

lemma hist_clear (now : ℕ) (h : List HistEntry) (i : ℕ) (e : HistEntry)
    (he : h[i]? = some e) : (clearHistory now h)[i]? = some (clearEntry now e) := by
  unfold clearHistory
  rw [List.getElem?_map, he]
  rfl

lemma tick_hist_evolves (g : CState → ℕ) (s : CState) (inp : TickInput) (i : ℕ)
    (e : HistEntry) (h : s.history[i]? = some e) :
    ∃ e', (tick g s inp).history[i]? = some e' ∧ evolvesTo e e' := by
  have h1 : (update_vehicle_counts s inp.added).history[i]? = some e := h
  have h2 := hist_add_event _ inp.event _ _ h1
  have h3 : (process_vehicles (add_traffic_event (update_vehicle_counts s inp.added)
      inp.event)).history[i]? = some e := h2
  have h4 := hist_update_phase g _ _ _ h3
  exact ⟨_, hist_clear _ _ _ _ h4, clearEntry_evolvesTo _ e⟩

lemma run_hist_evolves (g : CState → ℕ) (l : List TickInput) (s : CState) (i : ℕ)
    (e : HistEntry) (h : s.history[i]? = some e) :
    ∃ e', (l.foldl (tick g) s).history[i]? = some e' ∧ evolvesTo e e' := by
  induction l generalizing s e with
  | nil => exact ⟨e, h, Or.inl rfl⟩
  | cons x t ih =>
      obtain ⟨e1, he1, hev1⟩ := tick_hist_evolves g s x i e h
      obtain ⟨e2, he2, hev2⟩ := ih _ _ he1
      exact ⟨e2, he2, evolvesTo_trans _ _ _ hev1 hev2⟩

/-- C3 counterexample: an accident bookkeeping entry appended to the
phase history by `add_random_traffic_event` is mutated in place by the
clearance scan of `run_simulation`: after the 20-tick recovery delay
its `event` tag has changed from `accident_clear` to
`accident_cleared`. -/
theorem c3_accident_entry_mutated :
    (run_simulation defaultGetDur [⟨⟨7, 0, 0, 0⟩, some (.accident .north)⟩]).history[0]? =
      some (.accidentClear 0 .north 7) ∧
    (run_simulation defaultGetDur
        (⟨⟨7, 0, 0, 0⟩, some (.accident .north)⟩ :: List.replicate 20 nopInput)).history[0]? =
      some (.accidentCleared 0 .north 7) ∧
    HistEntry.accidentClear 0 .north 7 ≠ HistEntry.accidentCleared 0 .north 7 := by
  refine ⟨by decide, by decide, by decide⟩

/-- C3 amended: a history entry, once appended, is never mutated
except for the single tag rewrite of an `accident_clear` entry into
`accident_cleared`; in particular every phase record (`phase`, `state`,
`duration`, counts snapshot) is byte-for-byte stable for the rest of
the run. -/
theorem c3_phase_records_stable (g : CState → ℕ) (l1 l2 : List TickInput) (i : ℕ)
    (e : HistEntry) (h : (run_simulation g l1).history[i]? = some e) :
    (run_simulation g (l1 ++ l2)).history[i]? = some e ∨
    ∃ t d r, e = .accidentClear t d r ∧
      (run_simulation g (l1 ++ l2)).history[i]? = some (.accidentCleared t d r) := by
  have hr : run_simulation g (l1 ++ l2) = l2.foldl (tick g) (run_simulation g l1) := by
    unfold run_simulation
    exact List.foldl_append _ _ _ _
  rw [hr]
  obtain ⟨e', he', hev⟩ := run_hist_evolves g l2 _ i e h
  rcases hev with rfl | ⟨t, d, r, rfl, rfl⟩
  · exact Or.inl he'
  · exact Or.inr ⟨t, d, r, rfl, he'⟩

/-- C3 witness: the phase record closed at tick 30 of a quiet run is
still unchanged at index 0 after 5 further ticks. -/
theorem c3_phase_records_stable_witness :
    (run_simulation defaultGetDur (List.replicate 31 nopInput)).history[0]? =
      some (.phaseRec 30 .ns .green 30 ⟨0, 0, 0, 0⟩) ∧
    ((run_simulation defaultGetDur
        (List.replicate 31 nopInput ++ List.replicate 5 nopInput)).history[0]? =
      some (.phaseRec 30 .ns .green 30 ⟨0, 0, 0, 0⟩) ∨
    ∃ t d r, (HistEntry.phaseRec 30 .ns .green 30 ⟨0, 0, 0, 0⟩) = .accidentClear t d r ∧
      (run_simulation defaultGetDur
          (List.replicate 31 nopInput ++ List.replicate 5 nopInput)).history[0]? =
        some (.accidentCleared t d r)) :=
  ⟨by decide,
   c3_phase_records_stable defaultGetDur (List.replicate 31 nopInput)
     (List.replicate 5 nopInput) 0 _ (by decide)⟩

/-! ## Claim C5: vehicle conservation -/

/-- Vehicles added to the queues by one tick input: the snapshot
counts plus a surge amount, if any. -/
def addedOf (inp : TickInput) : ℕ :=
  inp.added.total +
    (match inp.event with
     | some (.surge _ a) => a
     | _ => 0)

/-- Events that neither discard nor overwrite queued vehicles. -/
def benignEvent : Option TrafficEvent → Bool
  | none => true
  | some (.surge _ _) => true
  | some (.roadblock _) => false
  | some (.accident _) => false

/-- Recognize a pending `accident_clear` bookkeeping entry. -/
def isAccClear : HistEntry → Bool
  | .accidentClear _ _ _ => true
  | _ => false

lemma Queues.total_add (q r : Queues) : (q.add r).total = q.total + r.total := by
  cases q
  cases r
  simp [Queues.add, Queues.total]
  omega

lemma Queues.total_set_surge (q : Queues) (d : Direction) (a : ℕ) :
    (q.set d (q.get d + a)).total = q.total + a := by
  cases q
  cases d <;> simp [Queues.get, Queues.set, Queues.total] <;> omega

lemma process_conserves (s : CState) :
    (process_vehicles s).processed + (process_vehicles s).counts.total =
      s.processed + s.counts.total := by
  obtain ⟨cp, ps, te, pst, pd, q, pr, tw, h⟩ := s
  cases cp <;> cases ps <;>
    (cases q
     simp [process_vehicles, activeDirs, Phase.other, Queues.get, Queues.set, Queues.total]
     omega)

lemma update_phase_cp (g : CState → ℕ) (s : CState) :
    (update_phase g s).counts = s.counts ∧ (update_phase g s).processed = s.processed := by
  unfold update_phase
  split
  · split
    · exact ⟨rfl, rfl⟩
    · exact ⟨rfl, rfl⟩
  · exact ⟨rfl, rfl⟩

lemma ate_processed (s : CState) (ev : Option TrafficEvent) :
    (add_traffic_event s ev).processed = s.processed := by
  match ev with
  | none => rfl
  | some (.surge d a) => rfl
  | some (.roadblock d) => rfl
  | some (.accident d) => rfl

lemma ate_history_benign (s : CState) (ev : Option TrafficEvent)
    (hb : benignEvent ev = true) : (add_traffic_event s ev).history = s.history := by
  match ev with
  | none => rfl
  | some (.surge d a) => rfl
  | some (.roadblock d) => rfl
  | some (.accident d) => exact absurd hb (by simp [benignEvent])

lemma clearCounts_noacc (now : ℕ) :
    ∀ (h : List HistEntry) (q : Queues), (∀ e ∈ h, isAccClear e = false) →
      clearCounts now h q = q := by
  intro h
  induction h with
  | nil => intro q _; rfl
  | cons e t ih =>
      intro q hn
      have he := hn e (List.mem_cons_self _ _)
      have ht : ∀ x ∈ t, isAccClear x = false :=
        fun x hx => hn x (List.mem_cons_of_mem _ hx)
      cases e with
      | accidentClear t' d r => simp [isAccClear] at he
      | phaseRec t' p st d c => exact ih q ht
      | accidentCleared t' d r => exact ih q ht

lemma clearHistory_noacc (now : ℕ) (h : List HistEntry)
    (hn : ∀ e ∈ h, isAccClear e = false) : clearHistory now h = h := by
  unfold clearHistory
  conv_rhs => rw [← List.map_id h]
  apply List.map_congr_left
  intro e he
  have hf := hn e he
  cases e with
  | accidentClear t' d r => simp [isAccClear] at hf
  | phaseRec t' p st d c => rfl
  | accidentCleared t' d r => rfl

lemma update_phase_history_noacc (g : CState → ℕ) (s : CState)
    (hp : ∀ e ∈ s.history, isAccClear e = false) :
    ∀ e ∈ (update_phase g s).history, isAccClear e = false := by
  unfold update_phase
  split
  · split
    all_goals
      intro e he
      have he' : e ∈ s.history ++
          [HistEntry.phaseRec s.timeElapsed s.currentPhase s.phaseState s.phaseDuration s.counts] := he
      rcases List.mem_append.mp he' with h1 | h1
      · exact hp e h1
      · rw [List.mem_singleton.mp h1]
        rfl
  · exact hp

lemma tick_conserves (g : CState → ℕ) (s : CState) (inp : TickInput)
    (hb : benignEvent inp.event = true)
    (hp : ∀ e ∈ s.history, isAccClear e = false) :
    (tick g s inp).processed + (tick g s inp).counts.total =
      s.processed + s.counts.total + addedOf inp ∧
    ∀ e ∈ (tick g s inp).history, isAccClear e = false := by
  have h2hist : (add_traffic_event (update_vehicle_counts s inp.added) inp.event).history =
      s.history := ate_history_benign _ _ hb
  have h3noacc : ∀ e ∈ (process_vehicles (add_traffic_event
      (update_vehicle_counts s inp.added) inp.event)).history, isAccClear e = false := by
    intro e he
    have he' : e ∈ s.history := by rw [← h2hist]; exact he
    exact hp e he'
  have h4noacc := update_phase_history_noacc g _ h3noacc
  have hch := clearHistory_noacc
    (update_phase g (process_vehicles (add_traffic_event
      (update_vehicle_counts s inp.added) inp.event))).timeElapsed _ h4noacc
  have hcc := clearCounts_noacc
    (update_phase g (process_vehicles (add_traffic_event
      (update_vehicle_counts s inp.added) inp.event))).timeElapsed _
    (update_phase g (process_vehicles (add_traffic_event
      (update_vehicle_counts s inp.added) inp.event))).counts h4noacc
  constructor
  · show (update_phase g (process_vehicles (add_traffic_event
        (update_vehicle_counts s inp.added) inp.event))).processed +
      (clearCounts _ _ _).total = _
    rw [hcc, (update_phase_cp g _).1, (update_phase_cp g _).2, process_conserves]
    rw [ate_processed]
    show s.processed + (add_traffic_event (update_vehicle_counts s inp.added)
        inp.event).counts.total = s.processed + s.counts.total + addedOf inp
    match hev : inp.event with
    | none =>
        show s.processed + (s.counts.add inp.added).total = _
        rw [Queues.total_add]
        simp [addedOf, hev]
        omega
    | some (.surge d a) =>
        show s.processed + ((update_vehicle_counts s inp.added).counts.set d
          ((update_vehicle_counts s inp.added).counts.get d + a)).total = _
        rw [Queues.total_set_surge]
        show s.processed + ((s.counts.add inp.added).total + a) = _
        rw [Queues.total_add]
        simp [addedOf, hev]
        omega
    | some (.roadblock d) => simp [benignEvent, hev] at hb
    | some (.accident d) => simp [benignEvent, hev] at hb
  · show ∀ e ∈ clearHistory _ _, isAccClear e = false
    rw [hch]
    exact h4noacc

lemma run_conserves_aux (g : CState → ℕ) (l : List TickInput) :
    ∀ (s : CState), (∀ inp ∈ l, benignEvent inp.event = true) →
    (∀ e ∈ s.history, isAccClear e = false) →
    (l.foldl (tick g) s).processed + (l.foldl (tick g) s).counts.total =
      s.processed + s.counts.total + (l.map addedOf).sum ∧
    ∀ e ∈ (l.foldl (tick g) s).history, isAccClear e = false := by
  induction l with
  | nil =>
      intro s _ hp
      exact ⟨by simp, hp⟩
  | cons x t ih =>
      intro s hb hp
      obtain ⟨h1, h2⟩ := tick_conserves g s x (hb x (List.mem_cons_self _ _)) hp
      obtain ⟨h3, h4⟩ := ih (tick g s x) (fun i hi => hb i (List.mem_cons_of_mem _ hi)) h2
      constructor
      · rw [List.foldl_cons, h3, h1]
        simp
        omega
      · rw [List.foldl_cons]
        exact h4

/-- C5 counterexample: a single tick that adds 20 vehicles to the
north queue and then fires a roadblock there ends with
`processed + final queues = 10`, but 20 vehicles were added: the
roadblock silently discards half the queue, so the conservation
equation of the claim fails (the drain itself is exact and has no
rounding slack). -/
theorem c5_roadblock_breaks_conservation :
    (run_simulation defaultGetDur [⟨⟨20, 0, 0, 0⟩, some (.roadblock .north)⟩]).processed +
      (run_simulation defaultGetDur
        [⟨⟨20, 0, 0, 0⟩, some (.roadblock .north)⟩]).counts.total = 10 ∧
    ([(⟨⟨20, 0, 0, 0⟩, some (.roadblock .north)⟩ : TickInput)].map addedOf).sum = 20 ∧
    (10 : ℕ) ≠ 20 := by
  refine ⟨by decide, by decide, by decide⟩

/-- C5 amended: in every run in which no roadblock or accident event
fires, `processed_vehicles` plus the final queue total equals exactly
the number of vehicles added via snapshot updates and surge
injections (the drain operation is exact, so no rounding tolerance is
even needed); roadblock and accident events break the equation. -/
theorem c5_conservation_without_blocking (g : CState → ℕ) (l : List TickInput)
    (hb : ∀ inp ∈ l, benignEvent inp.event = true) :
    (run_simulation g l).processed + (run_simulation g l).counts.total =
      (l.map addedOf).sum := by
  have h := run_conserves_aux g l initState hb (by simp [initState])
  simpa [initState, Queues.total] using h.1

/-- C5 witness: a two-tick benign run (one snapshot of 5 vehicles, one
surge of 10) conserves vehicles exactly. -/
theorem c5_conservation_without_blocking_witness :
    (∀ inp ∈ [(⟨⟨5, 0, 0, 0⟩, none⟩ : TickInput),
        ⟨⟨0, 0, 0, 0⟩, some (.surge .east 10)⟩], benignEvent inp.event = true) ∧
    (run_simulation defaultGetDur [(⟨⟨5, 0, 0, 0⟩, none⟩ : TickInput),
        ⟨⟨0, 0, 0, 0⟩, some (.surge .east 10)⟩]).processed +
      (run_simulation defaultGetDur [(⟨⟨5, 0, 0, 0⟩, none⟩ : TickInput),
        ⟨⟨0, 0, 0, 0⟩, some (.surge .east 10)⟩]).counts.total =
      ([(⟨⟨5, 0, 0, 0⟩, none⟩ : TickInput),
        ⟨⟨0, 0, 0, 0⟩, some (.surge .east 10)⟩].map addedOf).sum :=
  ⟨by decide,
   c5_conservation_without_blocking defaultGetDur _ (by decide)⟩

/-! ## Claim C8 -/

/-- C8 counterexample: with responsiveness set to 1.0 the returned
north-south green is the integer truncation 48, not the freshly
computed target `342/7 ≈ 48.86`, so the returned green does not equal
the fresh target exactly. -/
theorem c8_green_truncates_target :
    ((AdaptiveStrategy.calculate_phase_times (set_responsiveness AdaptiveState.init 1)
        (some ⟨3, 0, 4, 0⟩)).2.nsGreen : ℚ) ≠
      (adaptiveTargets (update_trends (set_responsiveness AdaptiveState.init 1) ⟨3, 0, 4, 0⟩)
        ⟨3, 0, 4, 0⟩).1 ∧
    (AdaptiveStrategy.calculate_phase_times (set_responsiveness AdaptiveState.init 1)
        (some ⟨3, 0, 4, 0⟩)).2.nsGreen = 48 ∧
    (adaptiveTargets (update_trends (set_responsiveness AdaptiveState.init 1) ⟨3, 0, 4, 0⟩)
        ⟨3, 0, 4, 0⟩).1 = 342 / 7 := by
  refine ⟨?_, ?_, ?_⟩ <;>
    · simp [AdaptiveStrategy.calculate_phase_times, set_responsiveness, AdaptiveState.init,
        update_trends, pushTrend, adaptiveTargets, get_trend_factor, adaptive_max_cycle,
        min_green_time, yellow_time]
      norm_num

/-- C8 amended: `set_responsiveness 1.0` yields
`historical_weight = 0`, and then `calculate_phase_times` returns the
integer truncation (floor) of the freshly computed target green times,
independent of the previously stored times. -/
theorem c8_full_responsiveness (st st' : AdaptiveState) (vc : Queues)
    (hr : st.responsiveness = 1) (hw : st.historical_weight = 0) :
    (set_responsiveness st' 1).responsiveness = 1 ∧
    (set_responsiveness st' 1).historical_weight = 0 ∧
    (AdaptiveStrategy.calculate_phase_times st (some vc)).2.nsGreen =
      Int.floor ((adaptiveTargets (update_trends st vc) vc).1) ∧
    (AdaptiveStrategy.calculate_phase_times st (some vc)).2.ewGreen =
      Int.floor ((adaptiveTargets (update_trends st vc) vc).2) := by
  refine ⟨?_, ?_, ?_, ?_⟩
  · simp [set_responsiveness]
    norm_num
  · simp [set_responsiveness]
    norm_num
  · simp [AdaptiveStrategy.calculate_phase_times, hr, hw]
  · simp [AdaptiveStrategy.calculate_phase_times, hr, hw]

/-- C8 witness: the adaptive state right after `set_responsiveness 1`
on the initial state, with a concrete snapshot. -/
theorem c8_full_responsiveness_witness :
    (set_responsiveness AdaptiveState.init 1).responsiveness = 1 ∧
    (set_responsiveness AdaptiveState.init 1).historical_weight = 0 ∧
    ((set_responsiveness AdaptiveState.init 1).responsiveness = 1 ∧
     (set_responsiveness AdaptiveState.init 1).historical_weight = 0 ∧
     (AdaptiveStrategy.calculate_phase_times (set_responsiveness AdaptiveState.init 1)
        (some ⟨3, 0, 4, 0⟩)).2.nsGreen =
       Int.floor ((adaptiveTargets (update_trends (set_responsiveness AdaptiveState.init 1)
          ⟨3, 0, 4, 0⟩) ⟨3, 0, 4, 0⟩).1) ∧
     (AdaptiveStrategy.calculate_phase_times (set_responsiveness AdaptiveState.init 1)
        (some ⟨3, 0, 4, 0⟩)).2.ewGreen =
       Int.floor ((adaptiveTargets (update_trends (set_responsiveness AdaptiveState.init 1)
          ⟨3, 0, 4, 0⟩) ⟨3, 0, 4, 0⟩).2)) :=
  ⟨by norm_num [set_responsiveness], by norm_num [set_responsiveness],
   c8_full_responsiveness _ (set_responsiveness AdaptiveState.init 1) ⟨3, 0, 4, 0⟩
     (by norm_num [set_responsiveness]) (by norm_num [set_responsiveness])⟩
